import Mathlib

/-!
# Verification of the Meow front end (lexer + parser skeleton)

A shallow embedding of the `meow` crate's lexer (`src/lexer/mod.rs`), token
model (`src/lexer/token.rs`), diagnostics (`src/errors/mod.rs`), and parser
(`src/parser/mod.rs`, `src/parser/expression.rs`, `src/parser/precedence.rs`),
with theorems checking the repository's specification against it.

Modelling conventions:

* The `Peekable<Chars>` cursor is the list of remaining characters.
* Machine integers (`usize`, `u32`) are `Nat`; the only subtraction
  (`position - length` in `create_token`) never underflows on the paths the
  lexer takes, so `Nat` truncated subtraction is faithful there.
* A Rust panic (`Option::unwrap` on `None`, `todo!()`, `unreachable!()`,
  a byte-slice out of range or off a UTF-8 character boundary) is the
  `panicked` outcome of the `RRes` result type.
* Loops (`while`/`loop`) are embedded with an explicit fuel argument so that
  every definition is structurally recursive and computes by `rfl`; `fuelOut`
  is the artificial out-of-fuel outcome, distinct from a panic.  Concrete
  theorems use ample fuel; universally quantified ones hold for every fuel
  that yields a non-`fuelOut` result.
* `Responder::emit_error` writes a rendered diagnostic to stderr; the
  embedding records the structured diagnostics, in emission order, in a list.
  The rendering itself (slicing the stored source by the label ranges) is a
  formatting concern outside the embedded observables.
* `token.rs` lags the rest of the crate: its `Token::new` takes three
  arguments while the lexer calls it with four (`kind`, `self.line`,
  `position` = `self.position - length`, i.e. the start position, and
  `self.position`, the end position), and `parse_literal` reads a `start`
  field.  The embedding follows the lexer's call: the third slot is stored
  in `column` (as `token.rs` names it; it is the token's start position, and
  equals the column on inputs before the first newline) and the fourth in
  `endPos`.  `next.start` in `parse_literal` is modelled by `column`.
-/

namespace Meow

/-- Outcome of an embedded Rust computation: `fuelOut` is the fuel-embedding
artifact, `panicked` models a Rust panic, `ok` a normal return. -/
inductive RRes (α : Type) : Type where
  | fuelOut : RRes α
  | panicked : RRes α
  | ok : α → RRes α
deriving DecidableEq

def RRes.bind {α β : Type} : RRes α → (α → RRes β) → RRes β
  | .fuelOut, _ => .fuelOut
  | .panicked, _ => .panicked
  | .ok a, f => f a

instance : Monad RRes where
  pure := RRes.ok
  bind := RRes.bind

/-- The `TokenKind` enum from `src/lexer/token.rs` (the `Char` variant is
named `CharLit` to avoid clashing with Lean's `Char`). -/
inductive TokenKind : Type where
  | OpenParen | CloseParen | OpenBracket | CloseBracket | OpenBrace | CloseBrace
  | Comma | Dot | Semicolon
  | And | Or | Range | RangeInclusive
  | Equal | EqualEqual | Bang | BangEqual
  | Greater | GreaterEqual | Less | LessEqual
  | Plus | PlusEqual | Minus | MinusEqual
  | Star | StarEqual | Slash | SlashEqual
  | Str : String → TokenKind
  | CharLit : Char → TokenKind
  | Int : String → TokenKind
  | Float : String → TokenKind
  | Ident : String → TokenKind
  | Class | Else | False | For | Fun | If | Impls | Import
  | Match | Mut | Return | Trait | True | Let | While
  | Error : String → TokenKind
  | Eof

/-- Injective encoding of `TokenKind`: constructor index plus payloads.  Used
to define the decidable equality (`PartialEq` in the source) by hand with a
shallow term — the derived instance's matcher is quadratic in the number of
constructors. -/
def TokenKind.enc : TokenKind → Nat × String × Char
  | .OpenParen => (0, "", Char.ofNat 0)
  | .CloseParen => (1, "", Char.ofNat 0)
  | .OpenBracket => (2, "", Char.ofNat 0)
  | .CloseBracket => (3, "", Char.ofNat 0)
  | .OpenBrace => (4, "", Char.ofNat 0)
  | .CloseBrace => (5, "", Char.ofNat 0)
  | .Comma => (6, "", Char.ofNat 0)
  | .Dot => (7, "", Char.ofNat 0)
  | .Semicolon => (8, "", Char.ofNat 0)
  | .And => (9, "", Char.ofNat 0)
  | .Or => (10, "", Char.ofNat 0)
  | .Range => (11, "", Char.ofNat 0)
  | .RangeInclusive => (12, "", Char.ofNat 0)
  | .Equal => (13, "", Char.ofNat 0)
  | .EqualEqual => (14, "", Char.ofNat 0)
  | .Bang => (15, "", Char.ofNat 0)
  | .BangEqual => (16, "", Char.ofNat 0)
  | .Greater => (17, "", Char.ofNat 0)
  | .GreaterEqual => (18, "", Char.ofNat 0)
  | .Less => (19, "", Char.ofNat 0)
  | .LessEqual => (20, "", Char.ofNat 0)
  | .Plus => (21, "", Char.ofNat 0)
  | .PlusEqual => (22, "", Char.ofNat 0)
  | .Minus => (23, "", Char.ofNat 0)
  | .MinusEqual => (24, "", Char.ofNat 0)
  | .Star => (25, "", Char.ofNat 0)
  | .StarEqual => (26, "", Char.ofNat 0)
  | .Slash => (27, "", Char.ofNat 0)
  | .SlashEqual => (28, "", Char.ofNat 0)
  | .Str s => (29, s, Char.ofNat 0)
  | .CharLit c => (30, "", c)
  | .Int s => (31, s, Char.ofNat 0)
  | .Float s => (32, s, Char.ofNat 0)
  | .Ident s => (33, s, Char.ofNat 0)
  | .Class => (34, "", Char.ofNat 0)
  | .Else => (35, "", Char.ofNat 0)
  | .False => (36, "", Char.ofNat 0)
  | .For => (37, "", Char.ofNat 0)
  | .Fun => (38, "", Char.ofNat 0)
  | .If => (39, "", Char.ofNat 0)
  | .Impls => (40, "", Char.ofNat 0)
  | .Import => (41, "", Char.ofNat 0)
  | .Match => (42, "", Char.ofNat 0)
  | .Mut => (43, "", Char.ofNat 0)
  | .Return => (44, "", Char.ofNat 0)
  | .Trait => (45, "", Char.ofNat 0)
  | .True => (46, "", Char.ofNat 0)
  | .Let => (47, "", Char.ofNat 0)
  | .While => (48, "", Char.ofNat 0)
  | .Error s => (49, s, Char.ofNat 0)
  | .Eof => (50, "", Char.ofNat 0)

/-- Decoder for `TokenKind.enc` (a left inverse, witnessed inside the
`DecidableEq` instance below). -/
def TokenKind.dec : Nat × String × Char → TokenKind := fun p =>
  let i := p.1
  let s := p.2.1
  let c := p.2.2
  if i = 0 then .OpenParen
  else if i = 1 then .CloseParen
  else if i = 2 then .OpenBracket
  else if i = 3 then .CloseBracket
  else if i = 4 then .OpenBrace
  else if i = 5 then .CloseBrace
  else if i = 6 then .Comma
  else if i = 7 then .Dot
  else if i = 8 then .Semicolon
  else if i = 9 then .And
  else if i = 10 then .Or
  else if i = 11 then .Range
  else if i = 12 then .RangeInclusive
  else if i = 13 then .Equal
  else if i = 14 then .EqualEqual
  else if i = 15 then .Bang
  else if i = 16 then .BangEqual
  else if i = 17 then .Greater
  else if i = 18 then .GreaterEqual
  else if i = 19 then .Less
  else if i = 20 then .LessEqual
  else if i = 21 then .Plus
  else if i = 22 then .PlusEqual
  else if i = 23 then .Minus
  else if i = 24 then .MinusEqual
  else if i = 25 then .Star
  else if i = 26 then .StarEqual
  else if i = 27 then .Slash
  else if i = 28 then .SlashEqual
  else if i = 29 then .Str s
  else if i = 30 then .CharLit c
  else if i = 31 then .Int s
  else if i = 32 then .Float s
  else if i = 33 then .Ident s
  else if i = 34 then .Class
  else if i = 35 then .Else
  else if i = 36 then .False
  else if i = 37 then .For
  else if i = 38 then .Fun
  else if i = 39 then .If
  else if i = 40 then .Impls
  else if i = 41 then .Import
  else if i = 42 then .Match
  else if i = 43 then .Mut
  else if i = 44 then .Return
  else if i = 45 then .Trait
  else if i = 46 then .True
  else if i = 47 then .Let
  else if i = 48 then .While
  else if i = 49 then .Error s
  else .Eof

instance : DecidableEq TokenKind := fun a b =>
  if h : a.enc = b.enc then
    .isTrue (by
      have hd : ∀ k : TokenKind, TokenKind.dec (TokenKind.enc k) = k := by
        intro k; cases k <;> rfl
      rw [← hd a, ← hd b, h])
  else .isFalse (fun e => h (by rw [e]))

/-- A token as the lexer constructs it: `Token::new(kind, line, position - length,
position)`; see the header comment on the stale three-field `token.rs`. -/
structure Token where
  kind : TokenKind
  line : Nat
  column : Nat
  endPos : Nat
deriving DecidableEq

/-- `is_whitespace` from `src/lexer/mod.rs` (Pattern_White_Space list). -/
def isWhitespace (c : Char) : Bool :=
  c = '\t' || c = '\n' || c = Char.ofNat 0x0B || c = Char.ofNat 0x0C ||
  c = '\r' || c = ' ' || c = Char.ofNat 0x85 ||
  c = Char.ofNat 0x200E || c = Char.ofNat 0x200F ||
  c = Char.ofNat 0x2028 || c = Char.ofNat 0x2029

/-- `char::is_numeric` as the lexer uses it.  The Rust predicate covers the
Unicode `Nd`/`Nl`/`No` classes; on the ASCII sources this development reasons
about it coincides with the decimal digits, which is how it is modelled. -/
def isNumeric (c : Char) : Bool := c.isDigit

/-- `unicode_xid::UnicodeXID::is_xid_start`, restricted to ASCII (letters);
`_` is handled by a separate check in `next_token`, as in the source. -/
def isXidStart (c : Char) : Bool := c.isAlpha

/-- `unicode_xid::UnicodeXID::is_xid_continue`, restricted to ASCII. -/
def isXidContinue (c : Char) : Bool := c.isAlpha || c.isDigit || c = '_'

/-- The `Lexer` struct: remaining characters plus the position counters. -/
structure Lexer where
  source : List Char
  position : Nat
  line : Nat
  column : Nat
deriving DecidableEq

/-- `Lexer::new`. -/
def Lexer.new (source : String) : Lexer :=
  { source := source.data, position := 1, line := 1, column := 1 }

/-- `Lexer::peek`: the next char without consuming, `'\0'` at end of input. -/
def Lexer.peek (l : Lexer) : Char := l.source.headD (Char.ofNat 0)

/-- `Lexer::at_end`. -/
def Lexer.atEnd (l : Lexer) : Bool := l.peek = Char.ofNat 0

/-- `Lexer::advance`: bump position and column, return the next char. -/
def Lexer.advance (l : Lexer) : Option Char × Lexer :=
  (l.source.head?,
   { l with source := l.source.tail, position := l.position + 1, column := l.column + 1 })

/-- `Lexer::advance_line`: bump position and line, reset the column. -/
def Lexer.advanceLine (l : Lexer) : Option Char × Lexer :=
  (l.source.head?,
   { l with source := l.source.tail, position := l.position + 1, line := l.line + 1,
            column := 1 })

/-- `Lexer::newline_aware_advance`. -/
def Lexer.newlineAwareAdvance (l : Lexer) : Option Char × Lexer :=
  if l.peek = '\n' then l.advanceLine else l.advance

/-- `Lexer::create_token`: the token starts at `position - length`. -/
def Lexer.createToken (l : Lexer) (kind : TokenKind) (length : Nat) : Token :=
  { kind := kind, line := l.line, column := l.position - length, endPos := l.position }

/-- `Lexer::with_single_or_double`. -/
def Lexer.withSingleOrDouble (l : Lexer) (expectedDouble : Char)
    (single double : TokenKind) : Token × Lexer :=
  if l.peek = expectedDouble then
    let token := l.createToken double 2
    let (_, l) := l.advance
    (token, l)
  else
    (l.createToken single 1, l)

/-- `Lexer::with_double`: exact second character or an `Error` token. -/
def Lexer.withDouble (l : Lexer) (expected : Char) (kind : TokenKind) : Token × Lexer :=
  let c := l.peek
  if c = expected then
    let token := l.createToken kind 1
    let (_, l) := l.advance
    (token, l)
  else
    (l.createToken (.Error ("Unknown character `" ++ c.toString ++ "` found in source")) 1, l)

/-- Byte length of a string given as characters (`str::len`). -/
def utf8Len (cs : List Char) : Nat := (cs.map Char.utf8Size).sum

/-- Rust byte-slice `s[i..]`: `none` models the panic on an out-of-range or
non-character-boundary index. -/
def byteDrop : List Char → Nat → Option (List Char)
  | cs, 0 => some cs
  | [], _ + 1 => none
  | c :: cs, n + 1 =>
    if c.utf8Size ≤ n + 1 then byteDrop cs (n + 1 - c.utf8Size) else none

/-- Rust byte-slice prefix `s[..j]`; `none` models the panic. -/
def byteTake : List Char → Nat → Option (List Char)
  | _, 0 => some []
  | [], _ + 1 => none
  | c :: cs, n + 1 =>
    if c.utf8Size ≤ n + 1 then (byteTake cs (n + 1 - c.utf8Size)).map (c :: ·) else none

/-- Rust byte-slice `s[i..j]` (with `i ≤ j` at every use site). -/
def byteSlice (cs : List Char) (i j : Nat) : Option (List Char) :=
  (byteDrop cs i).bind (fun t => byteTake t (j - i))

/-- `Lexer::get_keyword`: compare the suffixes `value[length..]` and
`keyword[length..]`. -/
def getKeyword (value keyword : List Char) (length : Nat) (token : TokenKind) :
    Option TokenKind :=
  match byteDrop value length, byteDrop keyword length with
  | some v, some k => some (if v = k then token else .Ident (String.mk value))
  | _, _ => none

/-- `Lexer::ident_type`: the hand-rolled keyword trie.  Two quirks of the
source are reproduced: the `value.len() < 2` guard in the `"f"` branch lacks
a `return`, so its `Ident` result is discarded and the byte-slice `value[1..2]`
runs (and panics on a one-byte value); and the `"i"`/`"f"` case returns
`TokenKind::If` with no exact-match check on the rest of the identifier. -/
def identType (value : List Char) : Option TokenKind :=
  match byteSlice value 0 1 with
  | none => none
  | some s =>
    if s = ['c'] then getKeyword value "class".data 1 .Class
    else if s = ['e'] then getKeyword value "else".data 1 .Else
    else if s = ['f'] then
      -- the `value.len() < 2` early return is missing in the source
      match byteSlice value 1 2 with
      | none => none
      | some s2 =>
        if s2 = ['a'] then getKeyword value "false".data 2 .False
        else if s2 = ['o'] then getKeyword value "for".data 2 .For
        else if s2 = ['u'] then getKeyword value "fun".data 2 .Fun
        else some (.Ident (String.mk value))
    else if s = ['i'] then
      if utf8Len value < 2 then some (.Ident (String.mk value))
      else
        match byteSlice value 1 2 with
        | none => none
        | some s2 =>
          if s2 = ['f'] then some .If
          else if s2 = ['m'] then
            if utf8Len value < 5 then some (.Ident (String.mk value))
            else
              match byteSlice value 2 3 with
              | none => none
              | some s3 =>
                if s3 = ['p'] then
                  match byteSlice value 3 4 with
                  | none => none
                  | some s4 =>
                    if s4 = ['o'] then getKeyword value "import".data 4 .Import
                    else if s4 = ['l'] then getKeyword value "impls".data 4 .Impls
                    else some (.Ident (String.mk value))
                else some (.Ident (String.mk value))
          else some (.Ident (String.mk value))
    else if s = ['l'] then getKeyword value "let".data 1 .Let
    else if s = ['m'] then
      if utf8Len value < 2 then some (.Ident (String.mk value))
      else
        match byteSlice value 1 2 with
        | none => none
        | some s2 =>
          if s2 = ['a'] then getKeyword value "match".data 2 .Match
          else if s2 = ['u'] then getKeyword value "mut".data 2 .Mut
          else some (.Ident (String.mk value))
    else if s = ['r'] then getKeyword value "return".data 1 .Return
    else if s = ['t'] then
      if utf8Len value < 3 then some (.Ident (String.mk value))
      else
        match byteSlice value 1 2 with
        | none => none
        | some s2 =>
          if ¬ (s2 = ['r']) then some (.Ident (String.mk value))
          else
            match byteSlice value 2 3 with
            | none => none
            | some s3 =>
              if s3 = ['u'] then getKeyword value "true".data 3 .True
              else if s3 = ['a'] then getKeyword value "trait".data 3 .Trait
              else some (.Ident (String.mk value))
    else if s = ['w'] then getKeyword value "while".data 1 .While
    else some (.Ident (String.mk value))

/-- The accumulation loop of `Lexer::get_ident`:
`while is_xid_continue(peek) { value.push(advance().unwrap()) }`. -/
def identLoopF : Nat → Lexer → List Char → RRes (List Char × Lexer)
  | 0, _, _ => .fuelOut
  | fuel + 1, l, value =>
    if isXidContinue l.peek then
      match l.advance with
      | (none, _) => .panicked
      | (some c, l') => identLoopF fuel l' (value ++ [c])
    else .ok (value, l)

/-- `Lexer::get_ident`. -/
def getIdent (fuel : Nat) (l : Lexer) (firstChar : Char) : RRes (Token × Lexer) :=
  let value := [firstChar]
  if l.atEnd then .ok (l.createToken (.Ident (String.mk value)) 1, l)
  else do
    let (value, l) ← identLoopF fuel l value
    match identType value with
    | none => .panicked
    | some tokenType => .ok (l.createToken tokenType (utf8Len value), l)

/-- The scan loop of `Lexer::lex_string`:
`while peek != '"' { value.push(newline_aware_advance().unwrap()) }`.
At end of input `peek` is the `'\0'` sentinel, never `'"'`, so the loop calls
`newline_aware_advance` on the exhausted source and the `unwrap` panics. -/
def lexStringLoopF : Nat → Lexer → List Char → RRes (List Char × Lexer)
  | 0, _, _ => .fuelOut
  | fuel + 1, l, value =>
    if l.peek ≠ '"' then
      match l.newlineAwareAdvance with
      | (none, _) => .panicked
      | (some c, l') => lexStringLoopF fuel l' (value ++ [c])
    else .ok (value, l)

/-- `Lexer::lex_string` (the opening quote is already consumed). -/
def lexString (fuel : Nat) (l : Lexer) : RRes (Token × Lexer) := do
  let (value, l) ← lexStringLoopF fuel l []
  let length := utf8Len value
  if l.atEnd then
    .ok (l.createToken
      (.Error "Unterminated string literal, expected closing quote, EOF (End of File) encountered")
      (length + 1), l)
  else
    let (_, l) := l.advance
    .ok (l.createToken (.Str (String.mk value)) (length + 2), l)

/-- The digit-run loop of `Lexer::lex_number`:
`while peek.is_numeric() { value.push(advance().unwrap()) }`. -/
def digitsLoopF : Nat → Lexer → List Char → RRes (List Char × Lexer)
  | 0, _, _ => .fuelOut
  | fuel + 1, l, value =>
    if isNumeric l.peek then
      match l.advance with
      | (none, _) => .panicked
      | (some c, l') => digitsLoopF fuel l' (value ++ [c])
    else .ok (value, l)

/-- `Lexer::lex_number` (the first digit is already consumed).  The source's
`is_integer` flag is folded into the two result branches: the flag is cleared,
and the dot consumed, as soon as the char after the digit run is `'.'`,
whether or not a digit follows the dot. -/
def lexNumber (fuel : Nat) (l : Lexer) (firstChar : Char) : RRes (Token × Lexer) :=
  let value := [firstChar]
  if l.atEnd then .ok (l.createToken (.Int (String.mk value)) 1, l)
  else do
    let (value, l) ← digitsLoopF fuel l value
    if l.peek = '.' then
      match l.advance with
      | (none, _) => .panicked
      | (some c, l') => do
        let (value, l) ← digitsLoopF fuel l' (value ++ [c])
        .ok (l.createToken (.Float (String.mk value)) (utf8Len value), l)
    else
      .ok (l.createToken (.Int (String.mk value)) (utf8Len value), l)

/-- `Lexer::lex_char` (the opening quote is already consumed). -/
def lexChar (l : Lexer) : RRes (Token × Lexer) :=
  if l.atEnd then
    .ok (l.createToken (.Error "Unterminated char literal, expected closing single quote") 1, l)
  else
    match l.advance with
    | (none, _) => .panicked
    | (some value, l) =>
      if value = '\'' then
        .ok (l.createToken (.Error "Unterminated char literal, expected closing single quote") 1, l)
      else if l.peek ≠ '\'' then
        .ok (l.createToken (.Error "Unterminated char literal, expected closing single quote") 1, l)
      else
        let (_, l) := l.advance
        .ok (l.createToken (.CharLit value) 1, l)

/-- `Lexer::next_token`, in the source's match-arm order.  The fuel only
bounds the whitespace recursion and the inner scan loops; one unit per
consumed character suffices. -/
def nextTokenF : Nat → Lexer → RRes (Token × Lexer)
  | 0, _ => .fuelOut
  | fuel + 1, l =>
    match l.newlineAwareAdvance with
    | (none, l) => .ok (l.createToken .Eof 0, l)
    | (some c, l) =>
      if c = '.' ∧ l.peek = '.' then
        let (_, l) := l.advance
        let token := l.createToken .Range 2
        if l.peek = '=' then
          let (_, l) := l.advance
          .ok (l.createToken .RangeInclusive 3, l)
        else .ok (token, l)
      else if c = '(' then .ok (l.createToken .OpenParen 1, l)
      else if c = ')' then .ok (l.createToken .CloseParen 1, l)
      else if c = '[' then .ok (l.createToken .OpenBracket 1, l)
      else if c = ']' then .ok (l.createToken .CloseBracket 1, l)
      else if c = '{' then .ok (l.createToken .OpenBrace 1, l)
      else if c = '}' then .ok (l.createToken .CloseBrace 1, l)
      else if c = ',' then .ok (l.createToken .Comma 1, l)
      else if c = '.' then .ok (l.createToken .Dot 1, l)
      else if c = ';' then .ok (l.createToken .Semicolon 1, l)
      else if c = '&' then .ok (l.withDouble '&' .And)
      else if c = '|' then .ok (l.withDouble '|' .Or)
      else if c = '=' then .ok (l.withSingleOrDouble '=' .Equal .EqualEqual)
      else if c = '!' then .ok (l.withSingleOrDouble '=' .Bang .BangEqual)
      else if c = '>' then .ok (l.withSingleOrDouble '=' .Greater .GreaterEqual)
      else if c = '<' then .ok (l.withSingleOrDouble '=' .Less .LessEqual)
      else if c = '+' then .ok (l.withSingleOrDouble '=' .Plus .PlusEqual)
      else if c = '-' then .ok (l.withSingleOrDouble '=' .Minus .MinusEqual)
      else if c = '*' then .ok (l.withSingleOrDouble '=' .Star .StarEqual)
      else if c = '/' then .ok (l.withSingleOrDouble '=' .Slash .SlashEqual)
      else if isWhitespace c then nextTokenF fuel l
      else if c = '"' then lexString fuel l
      else if c = '\'' then lexChar l
      else if '0' ≤ c ∧ c ≤ '9' then lexNumber fuel l c
      else if c = '_' ∨ isXidStart c then getIdent fuel l c
      else .ok (l.createToken
        (.Error ("Unknown character `" ++ c.toString ++ "` found in source")) 1, l)

/-- The token-collection loop the crate's tests and `lib.rs::parse` run:
pull tokens until `Eof`, recording the kinds (here including the final
`Eof`). -/
def lexKindsF : Nat → Lexer → RRes (List TokenKind)
  | 0, _ => .fuelOut
  | fuel + 1, l =>
    match nextTokenF (l.source.length + 1) l with
    | .fuelOut => .fuelOut
    | .panicked => .panicked
    | .ok (token, l') =>
      if token.kind = .Eof then .ok [.Eof]
      else do
        let kinds ← lexKindsF fuel l'
        .ok (token.kind :: kinds)

/-- The `ErrorKind` enum from `src/errors/mod.rs`. -/
inductive ErrorKind : Type where
  | InvalidSyntax
  | ExpectedToken
deriving DecidableEq

/-- A `Label` from `src/errors/mod.rs` (`end` is `stop` here; Rust's `end` is
not a usable Lean field name). -/
structure Label where
  start : Nat
  stop : Nat
  text : String
deriving DecidableEq

/-- `Label::new`. -/
def Label.new (start stop : Nat) (text : String) : Label :=
  { start := start, stop := stop, text := text }

/-- One call to `Responder::emit_error`, recorded structurally: the arguments
the parser hands to the reporter, in emission order.  The rendering to stderr
(slicing the stored source by each label's byte range) is out of scope. -/
structure Diag where
  kind : ErrorKind
  line : Nat
  column : Nat
  filename : String
  labels : List Label
  message : String
deriving DecidableEq

/-- The `Span` struct from `src/parser/mod.rs` (`end` renamed `stop`). -/
structure Span where
  start : Nat
  stop : Nat
deriving DecidableEq

/-- The `Position` struct from `src/parser/mod.rs`. -/
structure Position where
  span : Span
  line : Nat
  column : Nat
deriving DecidableEq

/-- `Lit` from `src/parser/ast.rs`.  `Float(f64)` carries Lean's `Float`;
no claim touches it.  Constructors that would clash with Lean types carry a
`Lit` suffix. -/
inductive Lit : Type where
  | Integer : Int → Lit
  | FloatLit : Float → Lit
  | CharLit : Char → Lit
  | StringLit : String → Lit
  | True : Lit
  | False : Lit

/-- `BinOp` from `src/parser/ast.rs`. -/
inductive BinOp : Type where
  | Plus | Minus | Star | Slash | EqualEqual | BangEqual
  | Greater | GreaterEqual | Less | LessEqual | And | Or
deriving DecidableEq

/-- `UnaryOp` from `src/parser/ast.rs`. -/
inductive UnaryOp : Type where
  | Minus | Bang
deriving DecidableEq

mutual
/-- `Stmt` from `src/parser/ast.rs`. -/
inductive Stmt : Type where
  | ExpressionStmt : Expr → Stmt

/-- `Expr` from `src/parser/ast.rs` (`Match` is `MatchE`: `Expr.Match` would
shadow the eliminator namespace). -/
inductive Expr : Type where
  | Literal (value : Lit) (position : Position)
  | Binary (op : BinOp) (lhs : Expr) (rhs : Expr) (position : Position)
  | Unary (op : UnaryOp) (rhs : Expr) (position : Position)
  | Ident (name : String)
  | Grouping (e : Expr)
  | Call (name : String) (arguments : List Expr) (position : Position)
  | Assignment (name : String) (value : Expr)
  | If (condition : Expr) (code : Stmt) (elseCode : Option Stmt) (position : Position)
  | Block (code : List Stmt) (position : Position)
  | For (expr : Expr) (code : List Stmt) (position : Position)
  | While (expr : Expr) (code : List Stmt) (position : Position)
  | MatchE (expr : Expr) (patterns : List Case)

/-- `Case` from `src/parser/ast.rs`. -/
inductive Case : Type where
  | mk (pattern : Expr) (code : List Stmt)
end

/-- `Precedence` from `src/parser/precedence.rs`; `u8` levels as `Nat`.
Fields carry a `Level` suffix (the Rust field names are not usable Lean
identifiers). -/
structure Precedence where
  prefixLevel : Option Nat
  infixLevel : Option Nat
deriving DecidableEq

/-- `Precedence::new`. -/
def Precedence.new (p i : Option Nat) : Precedence := ⟨p, i⟩

/-- `get_precedence` from `src/parser/precedence.rs`, including its catch-all
arm `_ => Precedence::new(None, Some(0))`. -/
def getPrecedence (op : TokenKind) : Precedence :=
  match op with
  | .Equal | .PlusEqual | .MinusEqual | .StarEqual | .SlashEqual => ⟨none, some 1⟩
  | .Or => ⟨none, some 2⟩
  | .And => ⟨none, some 3⟩
  | .EqualEqual | .BangEqual => ⟨none, some 4⟩
  | .Greater | .GreaterEqual | .Less | .LessEqual => ⟨none, some 5⟩
  | .Plus => ⟨none, some 6⟩
  | .Minus => ⟨some 8, some 6⟩
  | .Star | .Slash => ⟨none, some 7⟩
  | .Bang => ⟨some 8, none⟩
  | .OpenParen | .Dot => ⟨none, some 9⟩
  | _ => ⟨none, some 0⟩

/-- The `Parser` struct from `src/parser/mod.rs`.  The `Responder` it owns is
modelled by the `diags` list of emitted diagnostics (the responder's stored
source string is only read when rendering, which is out of scope). -/
structure PState where
  ast : List Stmt
  next : Option Token
  current : Option Token
  lexer : Lexer
  diags : List Diag
  filename : String

/-- `Parser::new`. -/
def Parser.new (source filename : String) : PState :=
  { ast := [], next := none, current := none, lexer := Lexer.new source,
    diags := [], filename := filename }

/-- Is this an `Error`-kind token? -/
def isErrorKind : TokenKind → Bool
  | .Error _ => true
  | _ => false

/-- The message an `Error` token carries. -/
def errMsg : TokenKind → String
  | .Error m => m
  | _ => ""

/-- The diagnostic `Parser::advance` emits for a skipped `Error` token, via
`parser_error(InvalidSyntax, token, vec![], &message)`. -/
def errDiag (filename : String) (t : Token) : Diag :=
  { kind := .InvalidSyntax, line := t.line, column := t.column,
    filename := filename, labels := [], message := errMsg t.kind }

/-- The `loop` inside `Parser::advance`: pull tokens, reporting and skipping
`Error` tokens, until a non-`Error` token lands in `next`.  `next_token` is
given fuel `source.length + 1`, which covers every internal iteration (each
consumes a character); the outer fuel bounds the number of pulls. -/
def advanceLoopF : Nat → PState → RRes PState
  | 0, _ => .fuelOut
  | fuel + 1, st =>
    match nextTokenF (st.lexer.source.length + 1) st.lexer with
    | .fuelOut => .fuelOut
    | .panicked => .panicked
    | .ok (token, lex') =>
      -- the source matches `Error(message) => parser_error(...)` against `_ => break`
      if isErrorKind token.kind then
        advanceLoopF fuel
          { st with lexer := lex', diags := st.diags ++ [errDiag st.filename token] }
      else .ok { st with lexer := lex', next := some token }

/-- `Parser::advance`: `self.current = self.next.take()`, then the skip loop. -/
def advanceF (fuel : Nat) (st : PState) : RRes PState :=
  advanceLoopF fuel { st with current := st.next, next := none }

/-- `Parser::consume`: check `self.next` against the expected kind, emit an
`InvalidSyntax` diagnostic on mismatch, then advance regardless. -/
def consumeF (fuel : Nat) (expected : TokenKind) (message : String)
    (labels : List Label) (st : PState) : RRes PState :=
  match st.next with
  | none => .panicked
  | some token =>
    let st :=
      if token.kind ≠ expected then
        { st with diags := st.diags ++
            [{ kind := .InvalidSyntax, line := token.line, column := token.column,
               filename := st.filename, labels := labels, message := message }] }
      else st
    advanceF fuel st

/-- `isize::MAX` on the 64-bit targets the crate builds for. -/
def isizeMax : Int := 2 ^ 63 - 1

/-- Numeric value of a decimal digit string. -/
def digitsVal (s : List Char) : Nat :=
  s.foldl (fun acc c => acc * 10 + (c.toNat - '0'.toNat)) 0

/-- `str::parse::<isize>` on 64-bit: an optional sign, at least one digit,
and a range check; `none` is `Err`. -/
def parseIsize (s : String) : Option Int :=
  match s.data with
  | [] => none
  | c :: ds =>
    if c = '+' then
      if ds ≠ [] ∧ ds.all Char.isDigit ∧ (digitsVal ds : Int) ≤ isizeMax then
        some (digitsVal ds)
      else none
    else if c = '-' then
      if ds ≠ [] ∧ ds.all Char.isDigit ∧ (digitsVal ds : Int) ≤ 2 ^ 63 then
        some (-(digitsVal ds : Int))
      else none
    else
      if (c :: ds).all Char.isDigit ∧ (digitsVal (c :: ds) : Int) ≤ isizeMax then
        some (digitsVal (c :: ds))
      else none

/-- `Parser::parse_literal` from `src/parser/expression.rs`: convert the
`Int` payload with `n.parse::<isize>().unwrap()` — the unwrap panics when the
digit string is out of `isize` range — and build the `Literal` node.
`next.start` is modelled by the token's `column` slot (see the header). -/
def parseLiteral (st : PState) : RRes Expr :=
  match st.next with
  | none => .panicked
  | some next =>
    match next.kind with
    | .Int n =>
      match parseIsize n with
      | none => .panicked
      | some value =>
        let position : Position :=
          { span := { start := next.column, stop := next.column + n.utf8ByteSize },
            line := next.line, column := next.column }
        .ok (Expr.Literal (Lit.Integer value) position)
    | _ => .panicked

/-- The `while` loop of `Parser::parse_expression`: while the minimum
precedence is at most the next token's infix level (both `unwrap_or(0)`),
advance and recurse.  The recursive call to `parse_expression` is passed in
as `pe` so that both functions stay structurally recursive on their fuel. -/
def parseLoopF (pe : Precedence → PState → RRes PState) :
    Nat → Precedence → PState → RRes PState
  | 0, _, _ => .fuelOut
  | fuel + 1, precedence, st =>
    match st.next with
    | none => .panicked
    | some next =>
      if precedence.infixLevel.getD 0 ≤ (getPrecedence next.kind).infixLevel.getD 0 then do
        let st ← advanceF (fuel + 1) st
        match st.next with
        | none => .panicked
        | some next2 => do
          let st ← pe (getPrecedence next2.kind) st
          parseLoopF pe fuel precedence st
      else .ok st

/-- `Parser::parse_expression` from `src/parser/expression.rs`, faithfully
unfinished: the left-hand side is parsed only for `Int` tokens (`todo!()`
otherwise, a panic), bound to a variable that is never used again, and the
function returns no expression — it only moves the cursor and can panic. -/
def parseExprF : Nat → Precedence → PState → RRes PState
  | 0, _, _ => .fuelOut
  | fuel + 1, precedence, st => do
    let st ← advanceF (fuel + 1) st
    match st.next with
    | none => .panicked
    | some next =>
      match next.kind with
      | .Int _ => do
        let _lhs ← parseLiteral st
        parseLoopF (parseExprF fuel) (fuel + 1) precedence st
      | _ => .panicked

/-! ### Concrete states used by the witness theorems -/

/-- The parser state reached from `Parser::new("@ 1", "f")` by one `advance`:
the `Error` token for `@` has been reported and skipped, `next` holds the
`Int "1"` token. -/
def advWitnessStart : PState := Parser.new "@ 1" "f"

/-- The state after that `advance` (checked by `rfl` in the witness). -/
def advWitnessEnd : PState :=
  { ast := [], next := some ⟨.Int "1", 1, 3, 4⟩, current := none,
    lexer := ⟨[], 4, 1, 4⟩,
    diags := [⟨.InvalidSyntax, 1, 1, "f", [], "Unknown character `@` found in source"⟩],
    filename := "f" }

/-- The parser state reached from `Parser::new("let x 10", "main.mw")` by two
`advance` calls, exactly as `main.rs` does before its `consume` call:
`current` holds `let`, `next` holds the identifier `x`. -/
def consumeWitnessStart : PState :=
  { ast := [], next := some ⟨.Ident "x", 1, 5, 6⟩, current := some ⟨.Let, 1, 1, 4⟩,
    lexer := ⟨" 10".data, 6, 1, 6⟩, diags := [], filename := "main.mw" }

/-- The state after `consume(Equal, "Expected to find token `=`", labels)`
on `consumeWitnessStart`: exactly one `InvalidSyntax` diagnostic, cursor
advanced. -/
def consumeWitnessEnd : PState :=
  { ast := [], next := some ⟨.Int "10", 1, 7, 9⟩, current := some ⟨.Ident "x", 1, 5, 6⟩,
    lexer := ⟨[], 9, 1, 9⟩,
    diags := [⟨.InvalidSyntax, 1, 5, "main.mw", [Label.new 0 8 "Unexpected token"],
              "Expected to find token `=`"⟩],
    filename := "main.mw" }

/-- A parser state whose `next` token is a 25-digit integer literal, as the
lexer would hand over for the numeral `1111111111111111111111111`. -/
def bigIntState : PState :=
  { Parser.new "1111111111111111111111111" "f" with
    next := some ⟨.Int "1111111111111111111111111", 1, 1, 26⟩ }

/-- A parser state whose `next` token is the integer literal `10`. -/
def smallIntState : PState :=
  { Parser.new "10" "f" with next := some ⟨.Int "10", 1, 1, 3⟩ }

/-! ## Equations for the embedded result monad, stated for `rw`/`simp`. -/

theorem RRes.bind_ok {α β : Type} (a : α) (f : α → RRes β) :
    (RRes.ok a >>= f) = f a := rfl

theorem RRes.bind_panicked {α β : Type} (f : α → RRes β) :
    ((RRes.panicked : RRes α) >>= f) = .panicked := rfl

theorem RRes.bind_fuelOut {α β : Type} (f : α → RRes β) :
    ((RRes.fuelOut : RRes α) >>= f) = .fuelOut := rfl

theorem RRes.ok_ne_panicked {α : Type} (a : α) : (RRes.ok a) ≠ .panicked := by
  intro h; cases h

theorem RRes.ok_ne_fuelOut {α : Type} (a : α) : (RRes.ok a) ≠ .fuelOut := by
  intro h; cases h

/-! ## Claim theorems: the lexer -/

/-- Claim C1 (code defect): a string literal that reaches end of input
without a closing quote makes `next_token` panic instead of returning the
`Error` token.  `lex_string`'s loop `while peek != '"'` sees the `'\0'`
end-of-input sentinel, which is never `'"'`, so it calls
`newline_aware_advance` on the exhausted source and `char.unwrap()` panics;
the `at_end` check after the loop (which would build the documented
`Unterminated string literal` error token) is unreachable.  Scanning the
four-character input `"abc` panics. -/
theorem claim_C1_unterminated_string_panics :
    nextTokenF 10 (Lexer.new "\"abc") = .panicked := rfl

/-- Claim C4 (code defect): `ident_type` classifies the identifier `ifx` as
the keyword `If`.  The `"i"`-then-`"f"` arm returns `TokenKind::If` with no
exact-match check on the remainder, so any identifier starting with `if` is
a keyword token, contradicting the exact-match classification the spec
requires (`classy`-style inputs work; `ifx` does not). -/
theorem claim_C4_ifx_lexes_as_keyword_if :
    nextTokenF 10 (Lexer.new "ifx") = .ok (⟨.If, 1, 1, 4⟩, ⟨[], 4, 1, 4⟩) ∧
    nextTokenF 10 (Lexer.new "classy") =
      .ok (⟨.Ident "classy", 1, 1, 7⟩, ⟨[], 7, 1, 7⟩) := ⟨rfl, rfl⟩

/-- Claim C9: scanning `4.2.1` from a fresh lexer yields exactly
`Float("4.2")`, `Dot`, `Int("1")`, then `Eof` — the second decimal point is
not absorbed into the first numeric literal. -/
theorem claim_C9_four_two_one_token_kinds :
    lexKindsF 10 (Lexer.new "4.2.1") = .ok [.Float "4.2", .Dot, .Int "1", .Eof] := rfl

/-- Claim C5 counterexample: on `4..5` the scanner does *not* emit an `Int`
token for the digits — `lex_number` absorbs the first dot as soon as it sees
it, without checking for a following digit, and emits `Float("4.")`, whose
payload has no digits after the decimal point. -/
theorem claim_C5_counterexample_four_dotdot_five :
    lexKindsF 10 (Lexer.new "4..5") = .ok [.Float "4.", .Dot, .Int "5", .Eof] ∧
    TokenKind.Float "4." ≠ TokenKind.Int "4" := ⟨rfl, by decide⟩

/-! ## Claim theorems: the parser -/

/-- Claim C2 (code defect): `parse_expression` builds no tree at all.  It
binds the parsed literal to a variable it never uses, returns `()` in Rust
(here: only a cursor state), and hits `todo!()` for any non-`Int` left-hand
side; parsing `x * y + z` (strictly decreasing precedences, the claim's
shape) panics on the identifier `x`, and even the all-literal `1 * 2 + 3`
panics at `Eof` — no `Binary` node is ever produced. -/
theorem claim_C2_parse_expression_builds_no_tree :
    parseExprF 50 ⟨none, none⟩ (Parser.new "x * y + z" "main.mw") = .panicked ∧
    parseExprF 50 ⟨none, none⟩ (Parser.new "1 * 2 + 3" "main.mw") = .panicked :=
  ⟨rfl, rfl⟩

/-- Claim C3 (code defect): a parse does not run to the natural end of input.
On the empty source the very first left-hand-side dispatch matches the `Eof`
token and executes `todo!()`, a panic; no call path reaches a normal
completion at `Eof` for a whole top-level parse. -/
theorem claim_C3_parse_expression_panics_before_eof :
    parseExprF 20 ⟨none, none⟩ (Parser.new "" "main.mw") = .panicked := rfl

/-- Claim C8 counterexample: the precedence table does not assign infix
`None` to tokens that cannot continue an expression — its catch-all arm is
`Precedence::new(None, Some(0))`, so `Semicolon` (and `Eof`, and every other
non-operator kind) carries infix level `Some(0)`, not `None`. -/
theorem claim_C8_counterexample_semicolon_has_infix_level :
    (getPrecedence TokenKind.Semicolon).infixLevel = some 0 ∧
    (getPrecedence TokenKind.Semicolon).infixLevel ≠ none ∧
    (getPrecedence TokenKind.Eof).infixLevel = some 0 :=
  ⟨rfl, by decide, rfl⟩

/-- Claim C8, amended: in `get_precedence` the prefix level is `None` for
every token kind except unary `Minus` and `Bang`, but the infix level is
`None` only for `Bang`; every kind that cannot act as an infix operator
falls into the catch-all and receives `Some(0)`, the minimum level, rather
than `None`. -/
theorem claim_C8_amended_precedence_table :
    ∀ k : TokenKind,
      ((getPrecedence k).infixLevel = none ↔ k = .Bang) ∧
      ((getPrecedence k).prefixLevel = none ↔ (k ≠ .Minus ∧ k ≠ .Bang)) := by
  intro k
  cases k <;> simp [getPrecedence]

/-- The skip loop of `advance` preserves `current`, `ast` and `filename`,
lands a non-`Error` token in `next`, and appends exactly one `InvalidSyntax`
diagnostic per `Error` token it skipped, in order. -/
theorem advanceLoopF_spec :
    ∀ (fuel : Nat) (st st' : PState), advanceLoopF fuel st = .ok st' →
      st'.current = st.current ∧ st'.ast = st.ast ∧ st'.filename = st.filename ∧
      (∃ tok, st'.next = some tok ∧ isErrorKind tok.kind = false) ∧
      (∃ errs : List Token, (∀ t ∈ errs, isErrorKind t.kind = true) ∧
        st'.diags = st.diags ++ errs.map (errDiag st.filename)) := by
  intro fuel
  induction fuel with
  | zero => intro st st' h; exact absurd h (by simp [advanceLoopF])
  | succ n ih =>
    intro st st' h
    rw [advanceLoopF] at h
    split at h
    · cases h
    · cases h
    · rename_i token lex' hnt
      split at h
      · rename_i he
        obtain ⟨hcur, hast, hfn, hnexts, errs, herrs, hdiags⟩ := ih _ _ h
        refine ⟨hcur, hast, hfn, hnexts, token :: errs, ?_, ?_⟩
        · intro t ht
          rcases List.mem_cons.mp ht with rfl | ht
          · exact he
          · exact herrs t ht
        · simpa [List.append_assoc] using hdiags
      · rename_i he
        cases h
        exact ⟨rfl, rfl, rfl, ⟨token, rfl, by simpa using he⟩, [], by simp, by simp⟩

/-- Claim C6: `consume` checks the token in `next` against the expected
kind; on mismatch it emits exactly one `InvalidSyntax` diagnostic carrying
the given message and labels and referencing that token's position, on match
it emits nothing, and in both cases it then advances and returns normally
(no abort, no unwinding).  The hypotheses say the token the subsequent
`advance` pulls from the lexer is not an `Error` token, so the mismatch
diagnostic is the only emission. -/
theorem claim_C6_consume_spec (fuel : Nat) (expected : TokenKind) (message : String)
    (labels : List Label) (st : PState) (ntok tok : Token) (lex' : Lexer)
    (hfuel : 0 < fuel)
    (hnext : st.next = some ntok)
    (hlex : nextTokenF (st.lexer.source.length + 1) st.lexer = .ok (tok, lex'))
    (htok : isErrorKind tok.kind = false) :
    consumeF fuel expected message labels st =
      .ok { st with
            current := some ntok
            next := some tok
            lexer := lex'
            diags := st.diags ++
              (if ntok.kind = expected then [] else
                [{ kind := .InvalidSyntax, line := ntok.line, column := ntok.column,
                   filename := st.filename, labels := labels, message := message }]) } := by
  obtain ⟨f, rfl⟩ : ∃ f, fuel = f + 1 := ⟨fuel - 1, by omega⟩
  have hstep : ∀ d : List Diag,
      advanceF (f + 1) { st with diags := d } =
        .ok { st with current := some ntok, next := some tok, lexer := lex', diags := d } := by
    intro d
    unfold advanceF
    rw [advanceLoopF]
    simp [hlex, htok, hnext]
  unfold consumeF
  simp only [hnext]
  by_cases he : ntok.kind = expected
  · simpa [he] using hstep st.diags
  · simpa [he, hnext] using
      hstep (st.diags ++
        [{ kind := .InvalidSyntax, line := ntok.line, column := ntok.column,
           filename := st.filename, labels := labels, message := message }])

/-- Claim C6 witness: the `let x 10` scenario from `main.rs`.  From
`Parser::new("let x 10", "main.mw")`, two `advance` calls reach
`consumeWitnessStart`; `consume(Equal, ...)` then emits exactly one
`InvalidSyntax` diagnostic (for the `x` token found where `=` was expected)
and continues. -/
theorem claim_C6_consume_witness :
    ((advanceF 9 (Parser.new "let x 10" "main.mw")).bind (advanceF 9) =
      .ok consumeWitnessStart) ∧
    consumeF 9 .Equal "Expected to find token `=`" [Label.new 0 8 "Unexpected token"]
      consumeWitnessStart = .ok consumeWitnessEnd :=
  ⟨rfl,
   claim_C6_consume_spec 9 .Equal "Expected to find token `=`"
     [Label.new 0 8 "Unexpected token"] consumeWitnessStart
     ⟨.Ident "x", 1, 5, 6⟩ ⟨.Int "10", 1, 7, 9⟩ ⟨[], 9, 1, 9⟩
     (by decide) rfl rfl rfl⟩

/-- Claim C7: after every successful `advance`, the old `next` token has
been shifted into `current`, the new `next` slot holds a non-`Error` token,
and every `Error` token produced in between has been reported as an
`InvalidSyntax` diagnostic carrying the error message (via `parser_error`)
and skipped — `Error` tokens never reach higher-level parsing logic. -/
theorem claim_C7_advance_spec (fuel : Nat) (st st' : PState)
    (h : advanceF fuel st = .ok st') :
    st'.current = st.next ∧
    (∃ tok, st'.next = some tok ∧ isErrorKind tok.kind = false) ∧
    (∃ errs : List Token, (∀ t ∈ errs, isErrorKind t.kind = true) ∧
      st'.diags = st.diags ++ errs.map (errDiag st.filename)) := by
  unfold advanceF at h
  obtain ⟨hcur, _, _, hnexts, herrs⟩ := advanceLoopF_spec fuel _ _ h
  exact ⟨hcur, hnexts, herrs⟩

/-- Claim C7 witness: advancing over the source `@ 1` reports the `Error`
token for `@` as a diagnostic, skips it, and leaves `Int("1")` in `next`. -/
theorem claim_C7_advance_witness :
    advanceF 5 advWitnessStart = .ok advWitnessEnd ∧
    (advWitnessEnd.current = advWitnessStart.next ∧
     (∃ tok, advWitnessEnd.next = some tok ∧ isErrorKind tok.kind = false) ∧
     (∃ errs : List Token, (∀ t ∈ errs, isErrorKind t.kind = true) ∧
        advWitnessEnd.diags =
          advWitnessStart.diags ++ errs.map (errDiag advWitnessStart.filename))) :=
  ⟨rfl, claim_C7_advance_spec 5 advWitnessStart advWitnessEnd rfl⟩

/-- `str::parse::<isize>` on an all-digit, non-empty payload: the value when
it fits `isize`, `Err` (here `none`) when it does not. -/
theorem parseIsize_digits (n : String) (hne : n.data ≠ [])
    (hd : n.data.all Char.isDigit = true) :
    parseIsize n =
      if (digitsVal n.data : Int) ≤ isizeMax then some ((digitsVal n.data : Nat) : Int)
      else none := by
  cases hl : n.data with
  | nil => exact absurd hl hne
  | cons c ds =>
    rw [hl] at hd
    have hc : c.isDigit = true := by
      have hall := List.all_eq_true.mp hd
      simpa using hall c (by simp)
    have hplus : ¬ (c = '+') := fun e => by rw [e] at hc; exact absurd hc (by decide)
    have hminus : ¬ (c = '-') := fun e => by rw [e] at hc; exact absurd hc (by decide)
    simp only [parseIsize, hl]
    rw [if_neg hplus, if_neg hminus]
    by_cases hr : (digitsVal (c :: ds) : Int) ≤ isizeMax
    · rw [if_pos ⟨hd, hr⟩, if_pos hr]
    · rw [if_neg (fun hh => hr hh.2), if_neg hr]

/-- Claim C10: `parse_literal` converts the digit string with an unchecked
`n.parse::<isize>().unwrap()`.  When the value fits `isize` it produces the
`Literal` node with the numeral's exact value; when the digit string's value
exceeds `isize::MAX`, the `unwrap` panics instead of producing a node or a
diagnostic. -/
theorem claim_C10_parse_literal_unchecked_isize (st : PState) (ntok : Token) (n : String)
    (hnext : st.next = some ntok) (hkind : ntok.kind = .Int n)
    (hne : n.data ≠ []) (hdigits : n.data.all Char.isDigit = true) :
    ((digitsVal n.data : Int) ≤ isizeMax →
      parseLiteral st = .ok (Expr.Literal (Lit.Integer ((digitsVal n.data : Nat) : Int))
        ⟨⟨ntok.column, ntok.column + n.utf8ByteSize⟩, ntok.line, ntok.column⟩)) ∧
    (isizeMax < (digitsVal n.data : Int) → parseLiteral st = .panicked) := by
  unfold parseLiteral
  simp only [hnext, hkind, parseIsize_digits n hne hdigits]
  constructor
  · intro h; rw [if_pos h]
  · intro h; rw [if_neg (by omega)]

/-- The digit-run loop: on a source starting with the digits `ds` followed by
a non-digit, it consumes exactly `ds`, appending them to the accumulator and
advancing position and column by one per digit. -/
theorem digitsLoopF_spec (ds : List Char) :
    ∀ (fuel : Nat) (l : Lexer) (value rest : List Char),
      l.source = ds ++ rest →
      ds.all isNumeric = true →
      isNumeric (rest.headD (Char.ofNat 0)) = false →
      ds.length < fuel →
      digitsLoopF fuel l value =
        .ok (value ++ ds,
          ⟨rest, l.position + ds.length, l.line, l.column + ds.length⟩) := by
  induction ds with
  | nil =>
    intro fuel l value rest hsrc hall hstop hfuel
    obtain ⟨f, rfl⟩ : ∃ f, fuel = f + 1 := ⟨fuel - 1, by omega⟩
    obtain ⟨src, pos, line, col⟩ := l
    simp only [List.nil_append] at hsrc
    subst src
    rw [digitsLoopF]
    have hpk : Lexer.peek ⟨rest, pos, line, col⟩ = rest.headD (Char.ofNat 0) := rfl
    rw [hpk, hstop]
    simp
  | cons d ds ih =>
    intro fuel l value rest hsrc hall hstop hfuel
    obtain ⟨f, rfl⟩ : ∃ f, fuel = f + 1 := ⟨fuel - 1, by omega⟩
    obtain ⟨src, pos, line, col⟩ := l
    simp only [List.cons_append] at hsrc
    subst src
    simp only [List.all_cons, Bool.and_eq_true] at hall
    obtain ⟨hd, hall⟩ := hall
    have hadv : Lexer.advance ⟨d :: (ds ++ rest), pos, line, col⟩ =
        (some d, ⟨ds ++ rest, pos + 1, line, col + 1⟩) := rfl
    have ihx := ih f ⟨ds ++ rest, pos + 1, line, col + 1⟩ (value ++ [d]) rest rfl hall hstop
      (by simp only [List.length_cons] at hfuel; omega)
    rw [digitsLoopF]
    have hpk : Lexer.peek ⟨d :: (ds ++ rest), pos, line, col⟩ = d := rfl
    rw [hpk, hd, if_pos rfl, hadv]
    show digitsLoopF f ⟨ds ++ rest, pos + 1, line, col + 1⟩ (value ++ [d]) =
      .ok (value ++ d :: ds,
        ⟨rest, pos + (d :: ds).length, line, col + (d :: ds).length⟩)
    rw [ihx]
    have h1 : value ++ [d] ++ ds = value ++ d :: ds := by simp
    have h2 : pos + 1 + ds.length = pos + (ds.length + 1) := by omega
    have h3 : col + 1 + ds.length = col + (ds.length + 1) := by omega
    rw [h1, h2, h3]
    rfl

/-- `lex_number` yields an `Int` token of exactly the digit run when the
character after the run is not a dot (the `hnul` hypothesis rules out a
literal NUL character masquerading as the end-of-input sentinel). -/
theorem lexNumber_int_spec (fuel : Nat) (l : Lexer) (firstChar : Char)
    (ds rest : List Char)
    (hsrc : l.source = ds ++ rest)
    (hds : ds.all isNumeric = true)
    (hrest : isNumeric (rest.headD (Char.ofNat 0)) = false)
    (hdot : rest.headD (Char.ofNat 0) ≠ '.')
    (hnul : rest.headD (Char.ofNat 0) = Char.ofNat 0 → rest = [])
    (hfc : firstChar.utf8Size = 1)
    (hfuel : ds.length < fuel) :
    lexNumber fuel l firstChar =
      .ok ((⟨rest, l.position + ds.length, l.line, l.column + ds.length⟩ : Lexer).createToken
             (.Int (String.mk (firstChar :: ds))) (utf8Len (firstChar :: ds)),
           ⟨rest, l.position + ds.length, l.line, l.column + ds.length⟩) := by
  obtain ⟨src, pos, line, col⟩ := l
  simp only at hsrc
  subst src
  by_cases hae : (Lexer.atEnd ⟨ds ++ rest, pos, line, col⟩) = true
  · have hpk : (ds ++ rest).headD (Char.ofNat 0) = Char.ofNat 0 := by
      simpa [Lexer.atEnd, Lexer.peek] using hae
    cases ds with
    | cons d ds' =>
      exfalso
      have hd : isNumeric d = true := by
        have := List.all_eq_true.mp hds; exact this d (by simp)
      rw [show (((d :: ds') ++ rest).headD (Char.ofNat 0)) = d from rfl] at hpk
      rw [hpk] at hd
      exact absurd hd (by decide)
    | nil =>
      simp only [List.nil_append] at hpk hae ⊢
      have hre := hnul hpk
      subst hre
      unfold lexNumber
      rw [if_pos hae]
      simp [Lexer.createToken, utf8Len, hfc]
  · unfold lexNumber
    rw [if_neg hae]
    rw [digitsLoopF_spec ds fuel _ [firstChar] rest rfl hds hrest hfuel]
    rw [RRes.bind_ok]
    show (if Lexer.peek ⟨rest, pos + ds.length, line, col + ds.length⟩ = '.' then _ else _) = _
    have hpk : Lexer.peek ⟨rest, pos + ds.length, line, col + ds.length⟩ =
        rest.headD (Char.ofNat 0) := rfl
    rw [hpk, if_neg hdot]
    rfl

/-- `lex_number` absorbs the dot whenever it immediately follows the digit
run — even when no digit follows the dot — and yields a `Float` token whose
payload is the digit run, the dot, and the (possibly empty) following digit
run. -/
theorem lexNumber_float_spec (fuel : Nat) (l : Lexer) (firstChar : Char)
    (ds es rest : List Char)
    (hsrc : l.source = ds ++ '.' :: (es ++ rest))
    (hds : ds.all isNumeric = true)
    (hes : es.all isNumeric = true)
    (hrest : isNumeric (rest.headD (Char.ofNat 0)) = false)
    (hfuel1 : ds.length < fuel) (hfuel2 : es.length < fuel) :
    lexNumber fuel l firstChar =
      .ok ((⟨rest, l.position + (ds.length + 1 + es.length), l.line,
             l.column + (ds.length + 1 + es.length)⟩ : Lexer).createToken
             (.Float (String.mk (firstChar :: (ds ++ '.' :: es))))
             (utf8Len (firstChar :: (ds ++ '.' :: es))),
           ⟨rest, l.position + (ds.length + 1 + es.length), l.line,
            l.column + (ds.length + 1 + es.length)⟩) := by
  obtain ⟨src, pos, line, col⟩ := l
  simp only at hsrc
  subst src
  have hstop1 : isNumeric (('.' :: (es ++ rest)).headD (Char.ofNat 0)) = false := by
    rw [List.headD_cons]; decide
  have hae : ¬ ((Lexer.atEnd ⟨ds ++ '.' :: (es ++ rest), pos, line, col⟩) = true) := by
    cases ds with
    | nil =>
      intro hc
      simp only [Lexer.atEnd, Lexer.peek, List.nil_append, List.headD_cons,
        decide_eq_true_eq] at hc
      exact absurd hc (by decide)
    | cons d ds' =>
      have hd : isNumeric d = true := by
        have := List.all_eq_true.mp hds; exact this d (by simp)
      intro hc
      have : d = Char.ofNat 0 := by
        simpa [Lexer.atEnd, Lexer.peek] using hc
      rw [this] at hd
      exact absurd hd (by decide)
  unfold lexNumber
  rw [if_neg hae]
  rw [digitsLoopF_spec ds fuel _ [firstChar] ('.' :: (es ++ rest)) rfl hds hstop1 hfuel1]
  rw [RRes.bind_ok]
  show (if Lexer.peek ⟨'.' :: (es ++ rest), pos + ds.length, line, col + ds.length⟩ = '.'
    then _ else _) = _
  rw [show Lexer.peek ⟨'.' :: (es ++ rest), pos + ds.length, line, col + ds.length⟩ =
    '.' from rfl]
  rw [if_pos rfl]
  rw [show Lexer.advance ⟨'.' :: (es ++ rest), pos + ds.length, line, col + ds.length⟩ =
    (some '.', ⟨es ++ rest, pos + ds.length + 1, line, col + ds.length + 1⟩) from rfl]
  show (digitsLoopF fuel ⟨es ++ rest, pos + ds.length + 1, line, col + ds.length + 1⟩
      (([firstChar] ++ ds) ++ ['.']) >>= fun p =>
        match p with
        | (value, l) => RRes.ok (l.createToken (.Float (String.mk value)) (utf8Len value), l)) = _
  rw [digitsLoopF_spec es fuel _ (([firstChar] ++ ds) ++ ['.']) rest rfl hes hrest hfuel2]
  rw [RRes.bind_ok]
  show RRes.ok
      ((⟨rest, pos + ds.length + 1 + es.length, line, col + ds.length + 1 + es.length⟩ : Lexer).createToken
        (.Float (String.mk ((([firstChar] ++ ds) ++ ['.']) ++ es)))
        (utf8Len ((([firstChar] ++ ds) ++ ['.']) ++ es)),
       (⟨rest, pos + ds.length + 1 + es.length, line,
         col + ds.length + 1 + es.length⟩ : Lexer)) = _
  have hlist : (([firstChar] ++ ds) ++ ['.']) ++ es = firstChar :: (ds ++ '.' :: es) := by
    simp
  rw [hlist]
  simp only [Lexer.createToken, RRes.ok.injEq, Prod.mk.injEq, Token.mk.injEq,
    Lexer.mk.injEq, TokenKind.Float.injEq]
  simp only [and_true, true_and, eq_self_iff_true]
  omega

/-- Claim C5, amended: a numeric literal becomes a `Float` token exactly when
the maximal digit run is immediately followed by `.`; the dot (and any digits
after it) is absorbed even when no digit follows it, so a `Float` payload is
the digit run, one dot, and a possibly empty digit run — `4..5` scans as
`Float("4.")`, `Dot`, `Int("5")`, not as an `Int` followed by the dot. -/
theorem claim_C5_amended_dot_always_absorbed :
    (∀ (fuel : Nat) (l : Lexer) (firstChar : Char) (ds rest : List Char),
      l.source = ds ++ rest → ds.all isNumeric = true →
      isNumeric (rest.headD (Char.ofNat 0)) = false →
      rest.headD (Char.ofNat 0) ≠ '.' →
      (rest.headD (Char.ofNat 0) = Char.ofNat 0 → rest = []) →
      firstChar.utf8Size = 1 → ds.length < fuel →
      lexNumber fuel l firstChar =
        .ok ((⟨rest, l.position + ds.length, l.line, l.column + ds.length⟩ : Lexer).createToken
               (.Int (String.mk (firstChar :: ds))) (utf8Len (firstChar :: ds)),
             ⟨rest, l.position + ds.length, l.line, l.column + ds.length⟩)) ∧
    (∀ (fuel : Nat) (l : Lexer) (firstChar : Char) (ds es rest : List Char),
      l.source = ds ++ '.' :: (es ++ rest) → ds.all isNumeric = true →
      es.all isNumeric = true → isNumeric (rest.headD (Char.ofNat 0)) = false →
      ds.length < fuel → es.length < fuel →
      lexNumber fuel l firstChar =
        .ok ((⟨rest, l.position + (ds.length + 1 + es.length), l.line,
               l.column + (ds.length + 1 + es.length)⟩ : Lexer).createToken
               (.Float (String.mk (firstChar :: (ds ++ '.' :: es))))
               (utf8Len (firstChar :: (ds ++ '.' :: es))),
             ⟨rest, l.position + (ds.length + 1 + es.length), l.line,
              l.column + (ds.length + 1 + es.length)⟩)) :=
  ⟨fun fuel l c ds rest h1 h2 h3 h4 h5 h6 h7 =>
     lexNumber_int_spec fuel l c ds rest h1 h2 h3 h4 h5 h6 h7,
   fun fuel l c ds es rest h1 h2 h3 h4 h5 h6 =>
     lexNumber_float_spec fuel l c ds es rest h1 h2 h3 h4 h5 h6⟩

/-- Claim C5 amended, witness: the two `lex_number` calls the scan of `4..5`
makes.  After consuming `4`, the digit run is empty and a dot follows, so the
token is `Float("4.")`; after consuming `5` at end of input, the token is
`Int("5")`. -/
theorem claim_C5_amended_witness :
    lexNumber 3 ⟨['.', '.', '5'], 2, 1, 2⟩ '4' =
      .ok (⟨.Float "4.", 1, 1, 3⟩, ⟨['.', '5'], 3, 1, 3⟩) ∧
    lexNumber 3 ⟨[], 5, 1, 5⟩ '5' = .ok (⟨.Int "5", 1, 4, 5⟩, ⟨[], 5, 1, 5⟩) :=
  ⟨claim_C5_amended_dot_always_absorbed.2 3 ⟨['.', '.', '5'], 2, 1, 2⟩ '4'
     [] [] ['.', '5'] rfl rfl rfl (by decide) (by decide) (by decide),
   claim_C5_amended_dot_always_absorbed.1 3 ⟨[], 5, 1, 5⟩ '5'
     [] [] rfl rfl (by decide) (by decide) (fun _ => rfl) (by decide) (by decide)⟩

/-- Claim C10 witness: the 25-digit numeral `1111111111111111111111111`
exceeds `isize::MAX`, so `parse_literal` panics on it; the in-range literal
`10` yields the `Literal` node with value 10. -/
theorem claim_C10_parse_literal_witness :
    parseLiteral bigIntState = .panicked ∧
    parseLiteral smallIntState =
      .ok (Expr.Literal (Lit.Integer 10) ⟨⟨1, 3⟩, 1, 1⟩) :=
  ⟨(claim_C10_parse_literal_unchecked_isize bigIntState
      ⟨.Int "1111111111111111111111111", 1, 1, 26⟩ "1111111111111111111111111"
      rfl rfl (by decide) (by decide)).2 (by decide),
   (claim_C10_parse_literal_unchecked_isize smallIntState
      ⟨.Int "10", 1, 1, 3⟩ "10" rfl rfl (by decide) (by decide)).1 (by decide)⟩

end Meow
